import Mathlib

/-!
# VaultTabs — verification of the natural-language specification

Shallow embedding of the VaultTabs repository (extension background sync
engine, client-side WebCrypto envelope encryption, and the relay's restore
protocol service/repository layer) together with proofs and refutations of
the frozen specification claims.

Conventions used throughout this development:
* byte strings are `List Nat` with every element `< 256`;
* JavaScript strings that only act as opaque identifiers (user ids, device
  ids, snapshot ids, request ids) are modelled as `Nat`;
* WebCrypto's AES-GCM is modelled structurally: GCM is CTR-mode XOR with a
  per-(key, iv) keystream followed by an authentication tag over the
  ciphertext.  The keystream and the tag function are opaque parameters —
  every theorem about the envelope holds for an arbitrary keystream/tag,
  which is exactly the property the source relies on;
* `crypto.getRandomValues` (fresh IVs and salts) shows up as explicit
  arguments of the embedded functions;
* SQL statements of the repository layer are embedded as pure functions on
  an explicit database value (a list of rows).
-/

namespace VaultTabs

/-! ## Bytes, base64 (utils/crypto.ts — bufferToBase64 / base64ToBuffer) -/

/-- One base64 alphabet character (ASCII code) for a sextet `n < 64`,
as produced by `btoa` inside `bufferToBase64`. -/
def b64Char (n : Nat) : Nat :=
  if n < 26 then 65 + n
  else if n < 52 then 97 + (n - 26)
  else if n < 62 then 48 + (n - 52)
  else if n = 62 then 43
  else 47

/-- Inverse alphabet lookup used by `atob` inside `base64ToBuffer`. -/
def b64Val (c : Nat) : Nat :=
  if 65 ≤ c ∧ c ≤ 90 then c - 65
  else if 97 ≤ c ∧ c ≤ 122 then 26 + (c - 97)
  else if 48 ≤ c ∧ c ≤ 57 then 52 + (c - 48)
  else if c = 43 then 62
  else 63

theorem b64Val_b64Char : ∀ n < 64, b64Val (b64Char n) = n := by decide

theorem b64Char_ne_pad : ∀ n < 64, b64Char n ≠ 61 := by decide

/-- Split a byte string into base64 sextets (the arithmetic core of `btoa`). -/
def toSextets : List Nat → List Nat
  | [] => []
  | [b0] => [b0 / 4, b0 % 4 * 16]
  | [b0, b1] => [b0 / 4, b0 % 4 * 16 + b1 / 16, b1 % 16 * 4]
  | b0 :: b1 :: b2 :: rest =>
      b0 / 4 :: (b0 % 4 * 16 + b1 / 16) :: (b1 % 16 * 4 + b2 / 64) :: b2 % 64 ::
        toSextets rest

/-- Reassemble bytes from base64 sextets (the arithmetic core of `atob`). -/
def fromSextets : List Nat → List Nat
  | s0 :: s1 :: s2 :: s3 :: rest =>
      (s0 * 4 + s1 / 16) :: (s1 % 16 * 16 + s2 / 4) :: (s2 % 4 * 64 + s3) ::
        fromSextets rest
  | [s0, s1] => [s0 * 4 + s1 / 16]
  | [s0, s1, s2] => [s0 * 4 + s1 / 16, s1 % 16 * 16 + s2 / 4]
  | _ => []

/-- Padding bytes (`'='`) appended by `btoa` so the output length is a multiple of 4. -/
def b64Padding (len : Nat) : List Nat :=
  if len % 3 = 1 then [61, 61] else if len % 3 = 2 then [61] else []

/-- Embeds `bufferToBase64` (utils/crypto.ts): bytes → base64 character codes. -/
def bufferToBase64 (bytes : List Nat) : List Nat :=
  (toSextets bytes).map b64Char ++ b64Padding bytes.length

/-- Embeds `base64ToBuffer` (utils/crypto.ts): base64 character codes → bytes. -/
def base64ToBuffer (chars : List Nat) : List Nat :=
  fromSextets (((chars.filter (· ≠ 61))).map b64Val)

theorem fromSextets_toSextets (bytes : List Nat) (h : ∀ b ∈ bytes, b < 256) :
    fromSextets (toSextets bytes) = bytes := by
  induction bytes using toSextets.induct with
  | case1 => rfl
  | case2 b0 =>
      have h0 := h b0 (by simp)
      simp only [toSextets, fromSextets, List.cons.injEq, and_true]
      omega
  | case3 b0 b1 =>
      have h0 := h b0 (by simp)
      have h1 := h b1 (by simp)
      simp only [toSextets, fromSextets, List.cons.injEq, and_true]
      omega
  | case4 b0 b1 b2 rest ih =>
      have h0 := h b0 (by simp)
      have h1 := h b1 (by simp)
      have h2 := h b2 (by simp)
      have hrest : ∀ b ∈ rest, b < 256 := fun b hb => h b (by simp [hb])
      simp only [toSextets, fromSextets, ih hrest, List.cons.injEq, and_true]
      omega

theorem toSextets_lt (bytes : List Nat) (h : ∀ b ∈ bytes, b < 256) :
    ∀ s ∈ toSextets bytes, s < 64 := by
  induction bytes using toSextets.induct with
  | case1 => simp [toSextets]
  | case2 b0 =>
      have h0 := h b0 (by simp)
      simp only [toSextets, List.mem_cons, List.not_mem_nil, or_false]
      rintro s (rfl | rfl) <;> omega
  | case3 b0 b1 =>
      have h0 := h b0 (by simp)
      have h1 := h b1 (by simp)
      simp only [toSextets, List.mem_cons, List.not_mem_nil, or_false]
      rintro s (rfl | rfl | rfl) <;> omega
  | case4 b0 b1 b2 rest ih =>
      have h0 := h b0 (by simp)
      have h1 := h b1 (by simp)
      have h2 := h b2 (by simp)
      have hrest : ∀ b ∈ rest, b < 256 := fun b hb => h b (by simp [hb])
      simp only [toSextets, List.mem_cons]
      rintro s (rfl | rfl | rfl | rfl | hs)
      · omega
      · omega
      · omega
      · omega
      · exact ih hrest s hs

/-- Base64 transport round-trip: decoding `bufferToBase64` recovers the bytes. -/
theorem base64ToBuffer_bufferToBase64 (bytes : List Nat)
    (h : ∀ b ∈ bytes, b < 256) :
    base64ToBuffer (bufferToBase64 bytes) = bytes := by
  have hsex := toSextets_lt bytes h
  have hfilter : ((toSextets bytes).map b64Char).filter (· ≠ 61)
      = (toSextets bytes).map b64Char := by
    rw [List.filter_eq_self]
    intro c hc
    rcases List.mem_map.mp hc with ⟨s, hs, rfl⟩
    have := b64Char_ne_pad s (hsex s hs)
    simpa using this
  have hpadfilter : (b64Padding bytes.length).filter (· ≠ 61) = [] := by
    unfold b64Padding
    split
    · decide
    · split
      · decide
      · decide
  unfold base64ToBuffer bufferToBase64
  rw [List.filter_append, hfilter, hpadfilter, List.append_nil,
    List.map_map]
  have hmaps : (toSextets bytes).map (b64Val ∘ b64Char) = toSextets bytes := by
    conv_rhs => rw [← List.map_id (toSextets bytes)]
    exact List.map_congr_left fun s hs => b64Val_b64Char s (hsex s hs)
  rw [hmaps]
  exact fromSextets_toSextets bytes h

/-! ## Tab snapshots and their serialization (utils/crypto.ts — TabSnapshot,
`JSON.stringify(tabs)` / `JSON.parse`)

A `TabSnapshot[]` value is serialized by `JSON.stringify` and UTF-8 encoded
before encryption, and recovered by `JSON.parse` after decryption.  We embed
this codec as an injective byte serialization of the same record structure
together with its inverse: strings appear as their UTF-8 byte lists, numeric
fields as 32-bit big-endian blocks (tab ids, window ids and tab indices are
32-bit quantities in the browser), and the optional favicon URL with a
presence byte. -/

/-- The `TabSnapshot` record (utils/crypto.ts). -/
structure TabSnapshot where
  id : Nat
  url : List Nat
  title : List Nat
  favIconUrl : Option (List Nat)
  windowId : Nat
  index : Nat
  active : Bool
  pinned : Bool
  deriving Repr, DecidableEq

/-- Big-endian 4-byte encoding of a 32-bit number. -/
def nat32ToBytes (n : Nat) : List Nat :=
  [n / 2 ^ 24 % 256, n / 2 ^ 16 % 256, n / 2 ^ 8 % 256, n % 256]

/-- Read back a big-endian 4-byte number, returning the rest of the input. -/
def parseNat32 : List Nat → Option (Nat × List Nat)
  | b0 :: b1 :: b2 :: b3 :: rest =>
      some (((b0 * 256 + b1) * 256 + b2) * 256 + b3, rest)
  | _ => none

theorem parseNat32_roundtrip (n : Nat) (hn : n < 2 ^ 32) (rest : List Nat) :
    parseNat32 (nat32ToBytes n ++ rest) = some (n, rest) := by
  simp only [nat32ToBytes, List.cons_append, List.nil_append, parseNat32,
    Option.some.injEq, Prod.mk.injEq, and_true]
  omega

/-- Length-prefixed byte-string encoding. -/
def encodeBytes (s : List Nat) : List Nat :=
  nat32ToBytes s.length ++ s

/-- Read a length-prefixed byte string, returning the rest of the input. -/
def parseBytes (l : List Nat) : Option (List Nat × List Nat) :=
  match parseNat32 l with
  | some (n, rest) => if n ≤ rest.length then some (rest.take n, rest.drop n) else none
  | none => none

theorem parseBytes_roundtrip (s : List Nat) (hs : s.length < 2 ^ 32)
    (rest : List Nat) : parseBytes (encodeBytes s ++ rest) = some (s, rest) := by
  unfold parseBytes encodeBytes
  rw [List.append_assoc, parseNat32_roundtrip s.length hs (s ++ rest)]
  simp

/-- One byte for a boolean flag. -/
def boolByte (b : Bool) : Nat := if b then 1 else 0

def parseBool : List Nat → Option (Bool × List Nat)
  | 0 :: rest => some (false, rest)
  | 1 :: rest => some (true, rest)
  | _ => none

theorem parseBool_roundtrip (b : Bool) (rest : List Nat) :
    parseBool (boolByte b :: rest) = some (b, rest) := by
  cases b <;> rfl

/-- Serialize one `TabSnapshot` record. -/
def encodeTab (t : TabSnapshot) : List Nat :=
  nat32ToBytes t.id ++ encodeBytes t.url ++ encodeBytes t.title ++
    (match t.favIconUrl with
     | none => [0]
     | some f => 1 :: encodeBytes f) ++
    nat32ToBytes t.windowId ++ nat32ToBytes t.index ++
    [boolByte t.active, boolByte t.pinned]

/-- Parse one `TabSnapshot` record, returning the rest of the input. -/
def parseTab (l : List Nat) : Option (TabSnapshot × List Nat) :=
  match parseNat32 l with
  | none => none
  | some (id, l) =>
  match parseBytes l with
  | none => none
  | some (url, l) =>
  match parseBytes l with
  | none => none
  | some (title, l) =>
  match
    (match l with
     | 0 :: l => some ((none : Option (List Nat)), l)
     | 1 :: l =>
        (match parseBytes l with
         | some (f, l) => some (some f, l)
         | none => none)
     | _ => none) with
  | none => none
  | some (fav, l) =>
  match parseNat32 l with
  | none => none
  | some (windowId, l) =>
  match parseNat32 l with
  | none => none
  | some (index, l) =>
  match parseBool l with
  | none => none
  | some (active, l) =>
  match parseBool l with
  | none => none
  | some (pinned, l) =>
    some (⟨id, url, title, fav, windowId, index, active, pinned⟩, l)

/-- Field bounds under which the serialization is lossless: numeric fields
are 32-bit and string fields are UTF-8 byte lists. -/
def tabWF (t : TabSnapshot) : Bool :=
  t.id < 2 ^ 32 && t.url.length < 2 ^ 32 && t.title.length < 2 ^ 32 &&
  t.windowId < 2 ^ 32 && t.index < 2 ^ 32 &&
  t.url.all (· < 256) && t.title.all (· < 256) &&
  (match t.favIconUrl with
   | none => true
   | some f => f.length < 2 ^ 32 && f.all (· < 256))

theorem parseTab_roundtrip (t : TabSnapshot) (h : tabWF t = true)
    (rest : List Nat) : parseTab (encodeTab t ++ rest) = some (t, rest) := by
  simp only [tabWF, Bool.and_eq_true, decide_eq_true_eq] at h
  obtain ⟨⟨⟨⟨⟨⟨⟨h1, h2⟩, h3⟩, h4⟩, h5⟩, -⟩, -⟩, h8⟩ := h
  unfold encodeTab parseTab
  simp only [List.append_assoc, List.cons_append]
  rw [parseNat32_roundtrip t.id h1]
  dsimp only
  rw [parseBytes_roundtrip t.url h2]
  dsimp only
  rw [parseBytes_roundtrip t.title h3]
  dsimp only
  cases hf : t.favIconUrl with
  | none =>
      simp only [List.cons_append, List.nil_append]
      rw [parseNat32_roundtrip t.windowId h4]
      dsimp only
      rw [parseNat32_roundtrip t.index h5]
      dsimp only
      rw [parseBool_roundtrip]
      dsimp only
      rw [parseBool_roundtrip]
      simp [← hf]
  | some f =>
      rw [hf] at h8
      simp only [Bool.and_eq_true, decide_eq_true_eq] at h8
      simp only [List.cons_append, List.append_assoc]
      rw [parseBytes_roundtrip f h8.1]
      dsimp only
      rw [parseNat32_roundtrip t.windowId h4]
      dsimp only
      rw [parseNat32_roundtrip t.index h5]
      dsimp only
      rw [parseBool_roundtrip]
      dsimp only
      rw [parseBool_roundtrip]
      simp [← hf]

/-- Serialize a tab list: element count followed by the records
(`JSON.stringify(tabs)` plus `TextEncoder.encode`, as one injective codec). -/
def serializeTabs (ts : List TabSnapshot) : List Nat :=
  nat32ToBytes ts.length ++ ts.foldr (fun t acc => encodeTab t ++ acc) []

/-- Parse `n` consecutive records. -/
def parseTabList : Nat → List Nat → Option (List TabSnapshot × List Nat)
  | 0, l => some ([], l)
  | n + 1, l =>
      match parseTab l with
      | none => none
      | some (t, l) =>
          match parseTabList n l with
          | none => none
          | some (ts, l) => some (t :: ts, l)

/-- Inverse codec (`JSON.parse`) of the serialized tab list (inverse codec). -/
def deserializeTabs (l : List Nat) : Option (List TabSnapshot) :=
  match parseNat32 l with
  | none => none
  | some (n, l) =>
      match parseTabList n l with
      | some (ts, []) => some ts
      | _ => none

theorem parseTabList_roundtrip (ts : List TabSnapshot)
    (h : ts.all tabWF = true) (rest : List Nat) :
    parseTabList ts.length
      ((ts.foldr (fun t acc => encodeTab t ++ acc) []) ++ rest)
      = some (ts, rest) := by
  induction ts with
  | nil => simp [parseTabList]
  | cons t ts ih =>
      simp only [List.all_cons, Bool.and_eq_true] at h
      simp only [List.length_cons, List.foldr_cons, List.append_assoc,
        parseTabList]
      rw [parseTab_roundtrip t h.1]
      dsimp only
      rw [ih h.2]

theorem deserializeTabs_serializeTabs (ts : List TabSnapshot)
    (hlen : ts.length < 2 ^ 32) (h : ts.all tabWF = true) :
    deserializeTabs (serializeTabs ts) = some ts := by
  unfold deserializeTabs serializeTabs
  rw [parseNat32_roundtrip ts.length hlen]
  dsimp only
  have := parseTabList_roundtrip ts h []
  rw [List.append_nil] at this
  rw [this]

/-- Every byte of the serialization is an actual byte (`< 256`). -/
theorem serializeTabs_bytes_lt (ts : List TabSnapshot)
    (h : ts.all tabWF = true) : ∀ b ∈ serializeTabs ts, b < 256 := by
  have hnat32 : ∀ n, ∀ b ∈ nat32ToBytes n, b < 256 := by
    intro n b hb
    simp only [nat32ToBytes, List.mem_cons, List.not_mem_nil, or_false] at hb
    rcases hb with rfl | rfl | rfl | rfl <;> omega
  have hbytes : ∀ s : List Nat, s.all (· < 256) = true →
      ∀ b ∈ encodeBytes s, b < 256 := by
    intro s hs b hb
    rcases List.mem_append.mp hb with hb | hb
    · exact hnat32 _ b hb
    · exact of_decide_eq_true (List.all_eq_true.mp hs b hb)
  have htab : ∀ t, tabWF t = true → ∀ b ∈ encodeTab t, b < 256 := by
    intro t ht b hb
    simp only [tabWF, Bool.and_eq_true, decide_eq_true_eq] at ht
    obtain ⟨⟨⟨⟨⟨⟨⟨-, -⟩, -⟩, -⟩, -⟩, h6⟩, h7⟩, h8⟩ := ht
    simp only [encodeTab, List.append_assoc, List.mem_append] at hb
    rcases hb with hb | hb | hb | hb
    · exact hnat32 _ b hb
    · exact hbytes _ h6 b hb
    · exact hbytes _ h7 b hb
    · rcases hb with hb | hb
      · revert hb
        cases hfav : t.favIconUrl with
        | none =>
            intro hb
            simp only [List.mem_cons, List.not_mem_nil, or_false] at hb
            omega
        | some f =>
            intro hb
            rw [hfav] at h8
            simp only [Bool.and_eq_true, decide_eq_true_eq] at h8
            simp only [List.mem_cons] at hb
            rcases hb with rfl | hb
            · omega
            · exact hbytes _ h8.2 b hb
      · rcases hb with hb | hb | hb
        · exact hnat32 _ b hb
        · exact hnat32 _ b hb
        · simp only [List.mem_cons, List.not_mem_nil, or_false] at hb
          rcases hb with rfl | rfl <;> cases t.active <;> cases t.pinned <;>
            simp [boolByte]
  have hfold : ∀ ts : List TabSnapshot, ts.all tabWF = true →
      ∀ b ∈ ts.foldr (fun t acc => encodeTab t ++ acc) [], b < 256 := by
    intro ts
    induction ts with
    | nil => simp
    | cons t ts ih =>
        intro hwf b hb
        simp only [List.all_cons, Bool.and_eq_true] at hwf
        simp only [List.foldr_cons, List.mem_append] at hb
        rcases hb with hb | hb
        · exact htab t hwf.1 b hb
        · exact ih hwf.2 b hb
  intro b hb
  rcases List.mem_append.mp hb with hb | hb
  · exact hnat32 _ b hb
  · exact hfold ts h b hb

/-! ## AES-256-GCM (WebCrypto `crypto.subtle.encrypt/decrypt/wrapKey/unwrapKey`)

The platform primitive is modelled structurally: GCM is CTR mode — each
plaintext byte is XORed with a keystream byte determined by (key, iv,
counter) — followed by an authentication tag computed over the ciphertext;
decryption recomputes and checks the tag and fails closed on mismatch.  The
keystream and tag derivation (AES block cipher + GHASH) are opaque
parameters, so every theorem below holds for an arbitrary instantiation. -/

/-- Opaque model of the AES-GCM internals: `ks key iv i` is the `i`-th
keystream byte and `tag key iv ct` the authentication tag. -/
structure GcmParams where
  ks : Nat → List Nat → Nat → Nat
  tag : Nat → List Nat → List Nat → Nat

/-- XOR a byte stream with the keystream starting at counter `i`. -/
def xorStream (f : Nat → Nat) : Nat → List Nat → List Nat
  | _, [] => []
  | i, b :: rest => (b ^^^ f i) :: xorStream f (i + 1) rest

theorem xorStream_involution (f : Nat → Nat) (i : Nat) (l : List Nat) :
    xorStream f i (xorStream f i l) = l := by
  induction l generalizing i with
  | nil => rfl
  | cons b rest ih =>
      simp only [xorStream, List.cons.injEq]
      exact ⟨by rw [Nat.xor_assoc, Nat.xor_self, Nat.xor_zero], ih (i + 1)⟩

theorem xorStream_lt (f : Nat → Nat) (hf : ∀ j, f j < 256) (i : Nat)
    (l : List Nat) (hl : ∀ b ∈ l, b < 256) :
    ∀ b ∈ xorStream f i l, b < 256 := by
  induction l generalizing i with
  | nil => simp [xorStream]
  | cons b rest ih =>
      intro c hc
      simp only [xorStream, List.mem_cons] at hc
      rcases hc with rfl | hc
      · have h1 : b < 2 ^ 8 := hl b (by simp)
        have h2 : f i < 2 ^ 8 := hf i
        exact Nat.xor_lt_two_pow h1 h2
      · exact ih (i + 1) (fun b hb => hl b (by simp [hb])) c hc

/-- AES-GCM encryption: CTR keystream XOR followed by the appended tag. -/
def gcmEncrypt (P : GcmParams) (key : Nat) (iv pt : List Nat) : List Nat :=
  let ct := xorStream (P.ks key iv) 0 pt
  ct ++ [P.tag key iv ct]

/-- AES-GCM decryption: check the tag over the ciphertext and undo the
keystream; any mismatch fails closed (`OperationError` in WebCrypto). -/
def gcmDecrypt (P : GcmParams) (key : Nat) (iv data : List Nat) :
    Option (List Nat) :=
  match data.getLast? with
  | none => none
  | some t =>
      if t = P.tag key iv data.dropLast then
        some (xorStream (P.ks key iv) 0 data.dropLast)
      else none

theorem gcmDecrypt_gcmEncrypt (P : GcmParams) (key : Nat) (iv pt : List Nat) :
    gcmDecrypt P key iv (gcmEncrypt P key iv pt) = some pt := by
  unfold gcmDecrypt gcmEncrypt
  rw [List.getLast?_concat, List.dropLast_concat]
  simp [xorStream_involution]

theorem gcmEncrypt_bytes_lt (P : GcmParams) (key : Nat) (iv pt : List Nat)
    (hks : ∀ i, P.ks key iv i < 256) (htag : ∀ ct, P.tag key iv ct < 256)
    (hpt : ∀ b ∈ pt, b < 256) : ∀ b ∈ gcmEncrypt P key iv pt, b < 256 := by
  intro b hb
  unfold gcmEncrypt at hb
  rcases List.mem_append.mp hb with hb | hb
  · exact xorStream_lt _ hks 0 pt hpt b hb
  · simp only [List.mem_cons, List.not_mem_nil, or_false] at hb
    subst hb
    exact htag _

/-! ## Snapshot encryption (utils/crypto.ts — `encryptSnapshot` /
`decryptSnapshot`)

`encryptSnapshot` serializes the tab list, encrypts it under the master key
with a fresh random 12-byte IV (the IV is an explicit argument here, standing
for `crypto.getRandomValues(new Uint8Array(12))`), and base64-encodes both
blob and IV.  `decryptSnapshot` decodes, decrypts and parses. -/

/-- Embeds `encryptSnapshot(tabs, masterKey)`: returns `(encryptedBlob, iv)`,
both base64 character strings. -/
def encryptSnapshot (P : GcmParams) (masterKey : Nat) (iv : List Nat)
    (tabs : List TabSnapshot) : List Nat × List Nat :=
  (bufferToBase64 (gcmEncrypt P masterKey iv (serializeTabs tabs)),
   bufferToBase64 iv)

/-- Embeds `decryptSnapshot(encryptedBlobBase64, ivBase64, masterKey)`; decryption
or parse failure surfaces as `none` (a thrown error in the source). -/
def decryptSnapshot (P : GcmParams) (blobB64 ivB64 : List Nat)
    (masterKey : Nat) : Option (List TabSnapshot) :=
  match gcmDecrypt P masterKey (base64ToBuffer ivB64) (base64ToBuffer blobB64) with
  | none => none
  | some pt => deserializeTabs pt

/-! ## Master-key envelope (utils/crypto.ts — `deriveWrappingKey`,
`encryptMasterKey` / `decryptMasterKey`, recovery-code path) -/

/-- PBKDF2-HMAC-SHA-256 modelled as an opaque derivation
`kdf iterations secret salt`; the password path uses 100 000 iterations. -/
def deriveWrappingKey (kdf : Nat → List Nat → List Nat → Nat)
    (password salt : List Nat) : Nat :=
  kdf 100000 password salt

/-- Normalization `recoveryCode.replace(hyphens, '').toUpperCase()` on ASCII codes:
drop `'-'` (45) and uppercase the letters. -/
def normalizeRecoveryCode (code : List Nat) : List Nat :=
  (code.filter (· ≠ 45)).map fun c => if 97 ≤ c ∧ c ≤ 122 then c - 32 else c

/-- Embeds `deriveRecoveryWrappingKey`: PBKDF2 over the normalized recovery code
with 50 000 iterations. -/
def deriveRecoveryWrappingKey (kdf : Nat → List Nat → List Nat → Nat)
    (code salt : List Nat) : Nat :=
  kdf 50000 (normalizeRecoveryCode code) salt

/-- Embeds `encryptMasterKey(masterKey, wrappingKey)` = `wrapKey('raw', …)` with a
fresh random 12-byte IV (explicit argument): returns
`(encryptedMasterKey, iv)`, both base64 character strings. -/
def encryptMasterKey (P : GcmParams) (masterKeyBytes : List Nat)
    (wrappingKey : Nat) (iv : List Nat) : List Nat × List Nat :=
  (bufferToBase64 (gcmEncrypt P wrappingKey iv masterKeyBytes),
   bufferToBase64 iv)

/-- Embeds `decryptMasterKey(encryptedMasterKeyBase64, ivBase64, wrappingKey)` =
`unwrapKey('raw', …)`: recovers the raw master-key bytes or fails closed. -/
def decryptMasterKey (P : GcmParams) (encB64 ivB64 : List Nat)
    (wrappingKey : Nat) : Option (List Nat) :=
  gcmDecrypt P wrappingKey (base64ToBuffer ivB64) (base64ToBuffer encB64)

theorem decryptMasterKey_encryptMasterKey (P : GcmParams) (K : List Nat)
    (w : Nat) (iv : List Nat) (hiv : ∀ b ∈ iv, b < 256)
    (hks : ∀ i, P.ks w iv i < 256) (htag : ∀ ct, P.tag w iv ct < 256)
    (hK : ∀ b ∈ K, b < 256) :
    decryptMasterKey P (encryptMasterKey P K w iv).1
      (encryptMasterKey P K w iv).2 w = some K := by
  unfold decryptMasterKey encryptMasterKey
  rw [base64ToBuffer_bufferToBase64 iv hiv,
    base64ToBuffer_bufferToBase64 _ (gcmEncrypt_bytes_lt P w iv K hks htag hK)]
  exact gcmDecrypt_gcmEncrypt P w iv K

/-- C3: for every tab list `T` (with browser-representable fields) and every
data key `K`, decrypting the output of `encryptSnapshot(T, K)` with the same
key `K`, using the IV produced by that encryption, returns a tab list equal
to `T` — for any AES-GCM keystream/tag instantiation producing bytes. -/
theorem C3_snapshot_roundtrip (P : GcmParams) (K : Nat) (iv : List Nat)
    (tabs : List TabSnapshot)
    (hiv : ∀ b ∈ iv, b < 256)
    (hks : ∀ i, P.ks K iv i < 256)
    (htag : ∀ ct, P.tag K iv ct < 256)
    (hlen : tabs.length < 2 ^ 32) (hwf : tabs.all tabWF = true) :
    decryptSnapshot P (encryptSnapshot P K iv tabs).1
      (encryptSnapshot P K iv tabs).2 K = some tabs := by
  unfold decryptSnapshot encryptSnapshot
  rw [base64ToBuffer_bufferToBase64 iv hiv,
    base64ToBuffer_bufferToBase64 _
      (gcmEncrypt_bytes_lt P K iv _ hks htag (serializeTabs_bytes_lt tabs hwf)),
    gcmDecrypt_gcmEncrypt]
  exact deserializeTabs_serializeTabs tabs hlen hwf

/-- Concrete tab record used by the witnesses. -/
def sampleTab : TabSnapshot :=
  { id := 1, url := [104, 116, 116, 112, 115, 58, 47, 47, 120], title := [86, 84],
    favIconUrl := some [105, 99, 111], windowId := 2, index := 0,
    active := true, pinned := false }

/-- Concrete AES-GCM instantiation used by the witnesses. -/
def sampleGcm : GcmParams :=
  { ks := fun key iv i => (key + iv.length + i) % 256,
    tag := fun key iv ct => (key + iv.length + ct.length) % 256 }

theorem C3_snapshot_roundtrip_witness :
    decryptSnapshot sampleGcm
      (encryptSnapshot sampleGcm 7 [0, 1, 2, 3, 4, 5, 6, 7, 8, 9, 10, 11] [sampleTab]).1
      (encryptSnapshot sampleGcm 7 [0, 1, 2, 3, 4, 5, 6, 7, 8, 9, 10, 11] [sampleTab]).2
      7 = some [sampleTab] :=
  C3_snapshot_roundtrip sampleGcm 7 _ [sampleTab] (by decide)
    (fun _ => Nat.mod_lt _ (by decide)) (fun _ => Nat.mod_lt _ (by decide))
    (by decide) (by decide)

/-- C5: unwrapping a wrap of the data key `K` under the credential-derived
key (recovery-code path, as in `handleRecover`), then re-wrapping the result
under a key derived from a new password with a fresh salt and IV, and
unwrapping with the new password, yields the same raw key bytes `K`. -/
theorem C5_key_durability (P : GcmParams)
    (kdf : Nat → List Nat → List Nat → Nat)
    (K c1 s1 c2 s2 iv1 iv2 : List Nat)
    (hK : ∀ b ∈ K, b < 256)
    (hiv1 : ∀ b ∈ iv1, b < 256) (hiv2 : ∀ b ∈ iv2, b < 256)
    (hks1 : ∀ i, P.ks (deriveRecoveryWrappingKey kdf c1 s1) iv1 i < 256)
    (htag1 : ∀ ct, P.tag (deriveRecoveryWrappingKey kdf c1 s1) iv1 ct < 256)
    (hks2 : ∀ i, P.ks (deriveWrappingKey kdf c2 s2) iv2 i < 256)
    (htag2 : ∀ ct, P.tag (deriveWrappingKey kdf c2 s2) iv2 ct < 256) :
    (decryptMasterKey P
        (encryptMasterKey P K (deriveRecoveryWrappingKey kdf c1 s1) iv1).1
        (encryptMasterKey P K (deriveRecoveryWrappingKey kdf c1 s1) iv1).2
        (deriveRecoveryWrappingKey kdf c1 s1)).bind
      (fun K' =>
        decryptMasterKey P
          (encryptMasterKey P K' (deriveWrappingKey kdf c2 s2) iv2).1
          (encryptMasterKey P K' (deriveWrappingKey kdf c2 s2) iv2).2
          (deriveWrappingKey kdf c2 s2)) = some K := by
  rw [decryptMasterKey_encryptMasterKey P K _ iv1 hiv1 hks1 htag1 hK]
  simp only [Option.some_bind]
  exact decryptMasterKey_encryptMasterKey P K _ iv2 hiv2 hks2 htag2 hK

theorem C5_key_durability_witness :
    (decryptMasterKey sampleGcm
        (encryptMasterKey sampleGcm [9, 8, 7]
          (deriveRecoveryWrappingKey (fun it _ _ => it) [86, 65] [3, 4]) [1, 2]).1
        (encryptMasterKey sampleGcm [9, 8, 7]
          (deriveRecoveryWrappingKey (fun it _ _ => it) [86, 65] [3, 4]) [1, 2]).2
        (deriveRecoveryWrappingKey (fun it _ _ => it) [86, 65] [3, 4])).bind
      (fun K' =>
        decryptMasterKey sampleGcm
          (encryptMasterKey sampleGcm K'
            (deriveWrappingKey (fun it _ _ => it) [112, 119] [5, 6]) [11, 12]).1
          (encryptMasterKey sampleGcm K'
            (deriveWrappingKey (fun it _ _ => it) [112, 119] [5, 6]) [11, 12]).2
          (deriveWrappingKey (fun it _ _ => it) [112, 119] [5, 6]))
      = some [9, 8, 7] :=
  C5_key_durability sampleGcm (fun it _ _ => it) [9, 8, 7] [86, 65] [3, 4]
    [112, 119] [5, 6] [1, 2] [11, 12] (by decide) (by decide) (by decide)
    (fun _ => Nat.mod_lt _ (by decide)) (fun _ => Nat.mod_lt _ (by decide))
    (fun _ => Nat.mod_lt _ (by decide)) (fun _ => Nat.mod_lt _ (by decide))

/-! ## Change-detection & sync engine
(extension/entrypoints/background.ts)

In-memory engine state is `lastUploadedHash : string | null` and
`isDirty : boolean`.  `performSync` reads the tab list, keeps only
`http(s)` tabs, hashes the serialization (`hashString ∘ JSON.stringify`,
the SHA-256 fingerprint is an opaque parameter `hashF`), skips the upload
when the hash matches `lastUploadedHash`, and otherwise attempts the
upload; the network outcome is the explicit argument `uploadOk`. -/

/-- The filter `tab.url.startsWith('http://') || tab.url.startsWith('https://')`. -/
def isHttpUrl (url : List Nat) : Bool :=
  url.take 7 == [104, 116, 116, 112, 58, 47, 47] ||
  url.take 8 == [104, 116, 116, 112, 115, 58, 47, 47]

/-- The two in-memory fields of the background sync engine. -/
structure SyncState where
  lastUploadedHash : Option Nat
  isDirty : Bool
  deriving Repr, DecidableEq

/-- Embeds `performSync` (background.ts): returns the new state and whether a
network upload (`apiUploadSnapshot`) was attempted. -/
def performSync (hashF : List Nat → Nat) (loggedIn hasKey : Bool)
    (chromeTabs : List TabSnapshot) (uploadOk : Bool) (st : SyncState) :
    SyncState × Bool :=
  if !loggedIn then ({ st with isDirty := false }, false)
  else if !hasKey then (st, false)
  else
    let tabs := chromeTabs.filter fun t => isHttpUrl t.url
    if tabs.isEmpty then ({ st with isDirty := false }, false)
    else
      let currentHash := hashF (serializeTabs tabs)
      if st.lastUploadedHash = some currentHash then
        ({ st with isDirty := false }, false)
      else if uploadOk then
        ({ lastUploadedHash := some currentHash, isDirty := false }, true)
      else (st, true)

/-- C6: a sync pass fingerprints the current encoded tab state; an
unchanged fingerprint clears `dirty` with no upload; a successful upload
stores the new fingerprint and clears `dirty`; a failed upload leaves
`dirty` and the stored fingerprint untouched; and two consecutive passes
over identical state (the first succeeding) attempt exactly one upload. -/
theorem C6_sync_pass (hashF : List Nat → Nat) (chromeTabs : List TabSnapshot)
    (st : SyncState)
    (hne : (chromeTabs.filter fun t => isHttpUrl t.url).isEmpty = false) :
    (st.lastUploadedHash =
        some (hashF (serializeTabs (chromeTabs.filter fun t => isHttpUrl t.url))) →
      ∀ uploadOk, performSync hashF true true chromeTabs uploadOk st
        = ({ st with isDirty := false }, false)) ∧
    (st.lastUploadedHash ≠
        some (hashF (serializeTabs (chromeTabs.filter fun t => isHttpUrl t.url))) →
      performSync hashF true true chromeTabs true st
        = ({ lastUploadedHash :=
              some (hashF (serializeTabs (chromeTabs.filter fun t => isHttpUrl t.url))),
             isDirty := false }, true) ∧
      performSync hashF true true chromeTabs false st = (st, true) ∧
      (performSync hashF true true chromeTabs true
          (performSync hashF true true chromeTabs true st).1).2 = false) := by
  constructor
  · intro hsame uploadOk
    simp [performSync, hne, hsame]
  · intro hdiff
    refine ⟨by simp [performSync, hne, hdiff], by simp [performSync, hne, hdiff], ?_⟩
    have h1 : performSync hashF true true chromeTabs true st
        = ({ lastUploadedHash :=
              some (hashF (serializeTabs (chromeTabs.filter fun t => isHttpUrl t.url))),
             isDirty := false }, true) := by
      simp [performSync, hne, hdiff]
    rw [h1]
    simp [performSync, hne]

theorem C6_sync_pass_witness :
    ((SyncState.mk none true).lastUploadedHash =
        some (List.length (serializeTabs ([sampleTab].filter fun t => isHttpUrl t.url))) →
      ∀ uploadOk, performSync List.length true true [sampleTab] uploadOk (SyncState.mk none true)
        = ({ SyncState.mk none true with isDirty := false }, false)) ∧
    ((SyncState.mk none true).lastUploadedHash ≠
        some (List.length (serializeTabs ([sampleTab].filter fun t => isHttpUrl t.url))) →
      performSync List.length true true [sampleTab] true (SyncState.mk none true)
        = ({ lastUploadedHash :=
              some (List.length (serializeTabs ([sampleTab].filter fun t => isHttpUrl t.url))),
             isDirty := false }, true) ∧
      performSync List.length true true [sampleTab] false (SyncState.mk none true)
        = (SyncState.mk none true, true) ∧
      (performSync List.length true true [sampleTab] true
          (performSync List.length true true [sampleTab] true (SyncState.mk none true)).1).2
        = false) :=
  C6_sync_pass List.length [sampleTab] (SyncState.mk none true) (by decide)

/-! ## Debounce coalescing (background.ts — `markDirty` and the
`chrome.alarms` debounce)

`markDirty` sets `isDirty` and calls
`chrome.alarms.create(ALARM_DEBOUNCE, { delayInMinutes: 3/60 })`; creating
an alarm under an existing name *replaces* it, so the single debounce alarm
is re-armed to fire one window after the latest event.  We model absolute
time in seconds: the alarm is the absolute fire time; an alarm whose time
has been reached fires (appending a sync-attempt time) before the next
event is handled, and a still-armed alarm fires once the event burst is
over. -/

/-- Debounce bookkeeping: the dirty flag, the pending debounce alarm
(absolute fire time), and the times of debounce-triggered sync attempts. -/
structure DebounceState where
  isDirty : Bool
  debounceAlarm : Option Nat
  syncTimes : List Nat
  deriving Repr, DecidableEq

/-- Clock reaches `t`: a due debounce alarm fires (`onAlarm` →
`performSync('debounce')`) and is consumed. -/
def fireDue (s : DebounceState) (t : Nat) : DebounceState :=
  match s.debounceAlarm with
  | some a =>
      if a ≤ t then
        { s with debounceAlarm := none, syncTimes := s.syncTimes ++ [a] }
      else s
  | none => s

/-- Embeds `markDirty` at time `t` (window `W` = `DEBOUNCE_SECONDS`): any alarm
already due has fired; set `isDirty`, re-arm the single debounce alarm for
`t + W`, replacing an existing one. -/
def markDirty (W : Nat) (s : DebounceState) (t : Nat) : DebounceState :=
  let s := fireDue s t
  { s with isDirty := true, debounceAlarm := some (t + W) }

/-- After the burst, time passes and the remaining alarm fires. -/
def drainAlarm (s : DebounceState) : DebounceState :=
  match s.debounceAlarm with
  | some a => { s with debounceAlarm := none, syncTimes := s.syncTimes ++ [a] }
  | none => s

/-- Process a burst of qualifying state-change events at the given times,
then let the surviving debounce alarm fire. -/
def runEvents (W : Nat) (s : DebounceState) (ts : List Nat) : DebounceState :=
  drainAlarm (ts.foldl (markDirty W) s)

theorem foldl_markDirty_burst (W : Nat) :
    ∀ (rest : List Nat) (cur : Nat) (s : DebounceState),
      s.isDirty = true → s.debounceAlarm = some (cur + W) →
      List.Chain (fun a b => a ≤ b ∧ b < a + W) cur rest →
      rest.foldl (markDirty W) s =
        { isDirty := true,
          debounceAlarm := some ((cur :: rest).getLast (by simp) + W),
          syncTimes := s.syncTimes } := by
  intro rest
  induction rest with
  | nil =>
      intro cur s hd ha _
      simp only [List.foldl_nil, List.getLast_singleton]
      cases s
      simp_all
  | cons r rest ih =>
      intro cur s hd ha hchain
      rcases List.chain_cons.mp hchain with ⟨⟨hle, hlt⟩, hchain'⟩
      have hstep : markDirty W s r = ⟨true, some (r + W), s.syncTimes⟩ := by
        unfold markDirty fireDue
        rw [ha]
        have hnr : ¬ (cur + W ≤ r) := by omega
        simp [hnr]
      rw [List.foldl_cons, hstep,
        ih r ⟨true, some (r + W), s.syncTimes⟩ rfl rfl hchain']
      simp [List.getLast_cons]

/-- C7: every qualifying state-change event sets `dirty` and re-arms the
single debounce alarm to one window after itself, replacing any existing
alarm; a burst of events each arriving within less than the window after
the previous one yields exactly one debounce sync attempt, at one window
after the last event. -/
theorem C7_debounce_coalescing (W t0 : Nat) (rest : List Nat)
    (hchain : List.Chain (fun a b => a ≤ b ∧ b < a + W) t0 rest) :
    (∀ (s : DebounceState) (t : Nat),
      (markDirty W s t).isDirty = true ∧
      (markDirty W s t).debounceAlarm = some (t + W)) ∧
    (runEvents W ⟨false, none, []⟩ (t0 :: rest)).syncTimes
      = [(t0 :: rest).getLast (by simp) + W] := by
  constructor
  · intro s t
    exact ⟨rfl, rfl⟩
  · unfold runEvents
    rw [List.foldl_cons]
    have h0 : markDirty W ⟨false, none, []⟩ t0 =
        { isDirty := true, debounceAlarm := some (t0 + W), syncTimes := [] } := rfl
    rw [h0, foldl_markDirty_burst W rest t0 _ rfl rfl hchain]
    rfl

theorem C7_debounce_coalescing_witness :
    List.Chain (fun a b => a ≤ b ∧ b < a + 3) 10 [11, 12, 13] ∧
    (∀ (s : DebounceState) (t : Nat),
      (markDirty 3 s t).isDirty = true ∧
      (markDirty 3 s t).debounceAlarm = some (t + 3)) ∧
    (runEvents 3 ⟨false, none, []⟩ (10 :: [11, 12, 13])).syncTimes
      = [(10 :: [11, 12, 13]).getLast (by simp) + 3] :=
  ⟨by simp only [List.chain_cons, List.Chain.nil, and_true]; omega,
   C7_debounce_coalescing 3 10 [11, 12, 13]
     (by simp only [List.chain_cons, List.Chain.nil, and_true]; omega)⟩

/-! ## Login / logout transitions (background.ts —
`chrome.runtime.onMessage`, START_SYNC / STOP_SYNC)

`START_SYNC` (login) sets `lastUploadedHash = null` and `isDirty = true`
and triggers an immediate sync pass.  `STOP_SYNC` (logout) calls
`chrome.alarms.clear` for the debounce and reconnect alarms, sets
`isStreamActive = false`, `lastUploadedHash = null`, `isDirty = false`.
The periodic fallback alarm (`ALARM_FALLBACK`), created unconditionally at
worker start with `chrome.alarms.create(ALARM_FALLBACK, { periodInMinutes:
3 })`, is *not* cleared by the STOP_SYNC handler.  The at-rest session
material (`clearStorage()` + `clearMasterKey()`) is cleared by the popup's
`handleLogout`, modelled here as well. -/

/-- Background-worker state relevant to login/logout: the two sync-engine
fields, the SSE stream flag, and which of the three `chrome.alarms` entries
currently exist. -/
structure BgEngine where
  lastUploadedHash : Option Nat
  isDirty : Bool
  isStreamActive : Bool
  debounceAlarm : Bool
  fallbackAlarm : Bool
  reconnectAlarm : Bool
  deriving Repr, DecidableEq

/-- At-rest session material: `chrome.storage.local` session fields and the
IndexedDB-stored master key. -/
structure AtRest where
  storagePresent : Bool
  masterKeyStored : Bool
  deriving Repr, DecidableEq

/-- The `START_SYNC` message handler (login): reset the fingerprint, mark dirty
(the subsequent `performSync('login')` is a separate sync pass). -/
def onStartSync (s : BgEngine) : BgEngine :=
  { s with lastUploadedHash := none, isDirty := true }

/-- The `STOP_SYNC` message handler (logout): clear the debounce and reconnect
alarms, deactivate the stream, drop the fingerprint and dirty flag. -/
def onStopSync (s : BgEngine) : BgEngine :=
  { s with
    debounceAlarm := false
    reconnectAlarm := false
    isStreamActive := false
    lastUploadedHash := none
    isDirty := false }

/-- Popup `handleLogout`: send STOP_SYNC, then `clearStorage()` and
`clearMasterKey()`. -/
def handleLogout (s : BgEngine) (_a : AtRest) : BgEngine × AtRest :=
  (onStopSync s, { storagePresent := false, masterKeyStored := false })

/-- Closed refutation of C8 as stated: the claim says logout cancels *all*
of the engine's timers, but the STOP_SYNC handler clears only the debounce
and reconnect alarms — starting from a state where the periodic fallback
alarm exists, it still exists after the logout transition. -/
theorem C8_counterexample :
    (handleLogout ⟨some 5, true, true, true, true, true⟩ ⟨true, true⟩).1.fallbackAlarm
      = true := rfl

/-- C8 (amended): login resets `lastUploadedFingerprint` to null — so the
next sync pass attempts an upload unconditionally — and logout cancels the
debounce and reconnect timers (the periodic fallback alarm is left
scheduled) and clears the in-memory stream/fingerprint/dirty state, with
the at-rest key/session material cleared by the popup logout handler. -/
theorem C8_login_logout (s : BgEngine) (a : AtRest) :
    (onStartSync s).lastUploadedHash = none ∧
    (onStartSync s).isDirty = true ∧
    (∀ (hashF : List Nat → Nat) (chromeTabs : List TabSnapshot) (uploadOk : Bool),
      (chromeTabs.filter fun t => isHttpUrl t.url).isEmpty = false →
      (performSync hashF true true chromeTabs uploadOk
        ⟨(onStartSync s).lastUploadedHash, (onStartSync s).isDirty⟩).2 = true) ∧
    handleLogout s a =
      ({ lastUploadedHash := none, isDirty := false, isStreamActive := false,
         debounceAlarm := false, fallbackAlarm := s.fallbackAlarm,
         reconnectAlarm := false }, ⟨false, false⟩) := by
  refine ⟨rfl, rfl, ?_, by cases s; rfl⟩
  intro hashF chromeTabs uploadOk hne
  simp only [performSync, onStartSync, Bool.not_true, Bool.false_eq_true,
    if_false, hne]
  cases uploadOk <;> simp

theorem C8_login_logout_witness :
    ((onStartSync ⟨some 5, false, true, true, true, true⟩).lastUploadedHash = none ∧
    (onStartSync ⟨some 5, false, true, true, true, true⟩).isDirty = true ∧
    (∀ (hashF : List Nat → Nat) (chromeTabs : List TabSnapshot) (uploadOk : Bool),
      (chromeTabs.filter fun t => isHttpUrl t.url).isEmpty = false →
      (performSync hashF true true chromeTabs uploadOk
        ⟨(onStartSync ⟨some 5, false, true, true, true, true⟩).lastUploadedHash,
         (onStartSync ⟨some 5, false, true, true, true, true⟩).isDirty⟩).2 = true) ∧
    handleLogout ⟨some 5, false, true, true, true, true⟩ ⟨true, true⟩ =
      ({ lastUploadedHash := none, isDirty := false, isStreamActive := false,
         debounceAlarm := false, fallbackAlarm := true,
         reconnectAlarm := false }, ⟨false, false⟩)) ∧
    (performSync (fun _ => 0) true true [sampleTab] true
      ⟨(onStartSync ⟨some 5, false, true, true, true, true⟩).lastUploadedHash,
       (onStartSync ⟨some 5, false, true, true, true, true⟩).isDirty⟩).2 = true :=
  ⟨C8_login_logout ⟨some 5, false, true, true, true, true⟩ ⟨true, true⟩,
   (C8_login_logout ⟨some 5, false, true, true, true, true⟩ ⟨true, true⟩).2.2.1
     (fun _ => 0) [sampleTab] true (by decide)⟩

/-! ## Restore protocol — relay-side data model and repository
(backend: interfaces/models.ts, repositories/postgresRestore.repository.ts,
repositories/postgresSnapshot.repository.ts, services/restore.service.ts)

The `restore_requests` and `snapshots` tables are explicit row lists; the
SQL statements of the repository become pure functions on that value.
Timestamps are milliseconds (`Date.now()`-style `Nat`s). -/

/-- Status column `restore_requests.status`. -/
inductive RStatus where
  | pending
  | completed
  | failed
  | expired
  deriving Repr, DecidableEq

/-- A `restore_requests` row. -/
structure RestoreRequest where
  id : Nat
  user_id : Nat
  source_device_id : Nat
  target_device_id : Nat
  snapshot_id : Nat
  target_url : Option String
  status : RStatus
  error_msg : Option String
  created_at : Nat
  expires_at : Nat
  deriving Repr, DecidableEq

/-- A `snapshots` row. -/
structure Snapshot where
  id : Nat
  user_id : Nat
  device_id : Nat
  captured_at : Nat
  iv : List Nat
  encrypted_blob : List Nat
  deriving Repr, DecidableEq

/-- The relay store as seen by the restore protocol. -/
structure RestoreDb where
  requests : List RestoreRequest
  snapshots : List Snapshot
  deriving Repr, DecidableEq

/-- Embeds `ORDER BY … DESC LIMIT 1` over a key: first row with maximal key
(ties resolved as the SQL leaves them — unspecified; any stable choice). -/
def argmaxBy {α : Type} (f : α → Nat) : List α → Option α
  | [] => none
  | x :: xs =>
      match argmaxBy f xs with
      | none => some x
      | some m => if f x < f m then some m else some x

theorem argmaxBy_mem {α : Type} (f : α → Nat) (l : List α) (x : α)
    (h : argmaxBy f l = some x) : x ∈ l := by
  induction l generalizing x with
  | nil => simp [argmaxBy] at h
  | cons y ys ih =>
      simp only [argmaxBy] at h
      rcases hm : argmaxBy f ys with _ | m
      · rw [hm] at h
        simp only [Option.some.injEq] at h
        simp [← h]
      · rw [hm] at h
        simp only at h
        split at h
        · simp only [Option.some.injEq] at h
          exact List.mem_cons_of_mem y (ih x (h ▸ hm))
        · simp only [Option.some.injEq] at h
          simp [← h]

theorem argmaxBy_eq_none {α : Type} (f : α → Nat) (l : List α) :
    argmaxBy f l = none ↔ l = [] := by
  cases l with
  | nil => simp [argmaxBy]
  | cons x xs =>
      simp only [argmaxBy]
      rcases argmaxBy f xs with _ | m <;> simp
      split <;> simp

/-- Embeds `PostgresSnapshotRepository.findById`. -/
def snapshotFindById (sid : Nat) (db : RestoreDb) : Option Snapshot :=
  db.snapshots.find? fun s => s.id == sid

/-- Embeds `PostgresSnapshotRepository.findByDeviceId`: latest snapshot of a
device (`ORDER BY captured_at DESC LIMIT 1`). -/
def snapshotFindByDeviceId (deviceId : Nat) (db : RestoreDb) : Option Snapshot :=
  argmaxBy (fun s => s.captured_at) (db.snapshots.filter fun s => s.device_id == deviceId)

/-- Embeds `PostgresRestoreRepository.expireExistingPending`: `UPDATE
restore_requests SET status = 'expired' WHERE target_device_id = … AND
status = 'pending'` (note: no owner filter in the SQL). -/
def expireExistingPending (targetDeviceId : Nat) (db : RestoreDb) : RestoreDb :=
  { db with requests := db.requests.map fun r =>
      if r.target_device_id = targetDeviceId ∧ r.status = RStatus.pending then
        { r with status := RStatus.expired }
      else r }

/-- Embeds `PostgresRestoreRepository.create`: INSERT with `status = 'pending'`;
the generated row id is the explicit argument `freshId`. -/
def restoreCreate (freshId : Nat) (user_id source_device_id target_device_id
    snapshot_id : Nat) (target_url : Option String) (created_at expires_at : Nat)
    (db : RestoreDb) : RestoreDb × RestoreRequest :=
  let row : RestoreRequest :=
    { id := freshId
      user_id := user_id
      source_device_id := source_device_id
      target_device_id := target_device_id
      snapshot_id := snapshot_id
      target_url := target_url
      status := RStatus.pending
      error_msg := none
      created_at := created_at
      expires_at := expires_at }
  ({ db with requests := db.requests ++ [row] }, row)

/-- Embeds `RestoreService.createRequest` (services/restore.service.ts): resolve
the snapshot (explicit id or latest for the target device), reject when it
is missing or owned by someone else, expire existing pending requests for
the target, then insert the new pending request with
`expires_at = now + 5 minutes`. -/
def createRequest (freshId now userId targetDeviceId : Nat)
    (snapshotId : Option Nat) (targetUrl : Option String) (db : RestoreDb) :
    Except String (RestoreDb × RestoreRequest) :=
  let snapshot? :=
    match snapshotId with
    | some sid => snapshotFindById sid db
    | none => snapshotFindByDeviceId targetDeviceId db
  match snapshot? with
  | none => .error "No snapshots found"
  | some snapshot =>
      if snapshot.user_id ≠ userId then .error "No snapshots found"
      else
        let db1 := expireExistingPending targetDeviceId db
        .ok (restoreCreate freshId userId snapshot.device_id targetDeviceId
          snapshot.id targetUrl now (now + 5 * 60 * 1000) db1)

/-- C1: when `createRequest(owner, target)` completes while an earlier
request `R1` for the same (owner, target) is pending, `R1` is left in
state `expired`, the created `R2` is pending, and `R2` is the only pending
request for that target in the resulting store. -/
theorem C1_single_pending (freshId now userId targetDeviceId : Nat)
    (snapshotId : Option Nat) (targetUrl : Option String)
    (db db' : RestoreDb) (R1 R2 : RestoreRequest)
    (hR1 : R1 ∈ db.requests) (hR1owner : R1.user_id = userId)
    (hR1t : R1.target_device_id = targetDeviceId)
    (hR1p : R1.status = RStatus.pending)
    (hok : createRequest freshId now userId targetDeviceId snapshotId
      targetUrl db = .ok (db', R2)) :
    { R1 with status := RStatus.expired } ∈ db'.requests ∧
    R2.status = RStatus.pending ∧ R2 ∈ db'.requests ∧
    (∀ r ∈ db'.requests, r.target_device_id = targetDeviceId →
      r.status = RStatus.pending → r = R2) := by
  unfold createRequest at hok
  rcases hsnap : (match snapshotId with
    | some sid => snapshotFindById sid db
    | none => snapshotFindByDeviceId targetDeviceId db) with _ | snapshot
  · rw [hsnap] at hok
    exact absurd hok (by simp)
  · rw [hsnap] at hok
    simp only at hok
    split at hok
    · exact absurd hok (by simp)
    · simp only [restoreCreate, Except.ok.injEq, Prod.mk.injEq] at hok
      obtain ⟨hdb', hR2⟩ := hok
      subst hdb'
      constructor
      · simp only [expireExistingPending, List.mem_append]
        left
        refine List.mem_map.mpr ⟨R1, hR1, ?_⟩
        rw [if_pos ⟨hR1t, hR1p⟩]
      refine ⟨by rw [← hR2], ?_, ?_⟩
      · simp [← hR2]
      · intro r hr hrt hrp
        simp only [expireExistingPending, List.mem_append] at hr
        rcases hr with hr | hr
        · rcases List.mem_map.mp hr with ⟨r0, hr0, hmap⟩
          by_cases hc : r0.target_device_id = targetDeviceId ∧ r0.status = RStatus.pending
          · rw [if_pos hc] at hmap
            rw [← hmap] at hrp
            simp at hrp
          · rw [if_neg hc] at hmap
            subst hmap
            exact absurd ⟨hrt, hrp⟩ hc
        · simp only [List.mem_cons, List.not_mem_nil, or_false] at hr
          rw [hr, hR2]

/-- Concrete store for the restore-protocol witnesses. -/
def sampleSnapshotRow : Snapshot :=
  { id := 100, user_id := 10, device_id := 2, captured_at := 1000,
    iv := [1, 2], encrypted_blob := [3, 4] }

def sampleR1 : RestoreRequest :=
  { id := 50, user_id := 10, source_device_id := 2, target_device_id := 2,
    snapshot_id := 100, target_url := none, status := RStatus.pending,
    error_msg := none, created_at := 500, expires_at := 800500 }

def sampleDb : RestoreDb :=
  { requests := [sampleR1], snapshots := [sampleSnapshotRow] }

def sampleR2 : RestoreRequest :=
  { id := 51, user_id := 10, source_device_id := 2, target_device_id := 2,
    snapshot_id := 100, target_url := none, status := RStatus.pending,
    error_msg := none, created_at := 2000, expires_at := 302000 }

def sampleDbAfter : RestoreDb :=
  { requests := [{ sampleR1 with status := RStatus.expired }, sampleR2],
    snapshots := [sampleSnapshotRow] }

theorem C1_single_pending_witness :
    { sampleR1 with status := RStatus.expired } ∈ sampleDbAfter.requests ∧
    sampleR2.status = RStatus.pending ∧ sampleR2 ∈ sampleDbAfter.requests ∧
    (∀ r ∈ sampleDbAfter.requests, r.target_device_id = 2 →
      r.status = RStatus.pending → r = sampleR2) :=
  C1_single_pending 51 2000 10 2 none none sampleDb sampleDbAfter sampleR1
    sampleR2 (by decide) rfl rfl rfl rfl

/-! ## Request completion (services/restore.service.ts
`completeRequest` → postgresRestore.repository.ts `updateStatus`)

The active code path is `PATCH /restore/:id` → `RestoreService.completeRequest`
→ `PostgresRestoreRepository.updateStatus`, whose SQL is
`UPDATE restore_requests SET status = …, error_msg = … WHERE id = …` —
no `status = 'pending'` guard and no `user_id` ownership filter.  (The
repository's legacy direct-SQL route `routes/restore.ts` *does* carry
`AND user_id = … AND status = 'pending'` and replies
"Request not found or already resolved", which is the behaviour the
specification describes.) -/

/-- Embeds `PostgresRestoreRepository.updateStatus`: unconditional update by id. -/
def updateStatus (id : Nat) (status : RStatus) (errorMsg : Option String)
    (db : RestoreDb) : RestoreDb :=
  { db with requests := db.requests.map fun r =>
      if r.id = id then { r with status := status, error_msg := errorMsg }
      else r }

/-- Embeds `RestoreService.completeRequest(userId, requestId, status, errorMsg)`:
delegates straight to `updateStatus`; the caller's `userId` is ignored. -/
def completeRequest (_userId requestId : Nat) (status : RStatus)
    (errorMsg : Option String) (db : RestoreDb) : RestoreDb :=
  updateStatus requestId status errorMsg db

/-- A request that has already been completed. -/
def resolvedReq : RestoreRequest :=
  { id := 60, user_id := 10, source_device_id := 2, target_device_id := 2,
    snapshot_id := 100, target_url := none, status := RStatus.completed,
    error_msg := none, created_at := 500, expires_at := 800500 }

/-- C2 (the code violates the claim): `complete` is *not* a guarded
conditional update in the active service path — calling it again on a
request whose status is already terminal (`completed`) overwrites the
stored status and error message instead of leaving them unchanged, and the
route then reports success rather than "not found/already resolved". -/
theorem C2_unguarded_complete_mutates :
    (completeRequest 10 60 RStatus.failed (some "late failure")
        { requests := [resolvedReq], snapshots := [] }).requests
      = [{ resolvedReq with
             status := RStatus.failed
             error_msg := some "late failure" }] ∧
    (completeRequest 10 60 RStatus.failed (some "late failure")
        { requests := [resolvedReq], snapshots := [] }).requests
      ≠ [resolvedReq] := by
  constructor
  · rfl
  · decide

/-! ## Pending fetch with query-time expiry
(postgresRestore.repository.ts `findPendingByTargetDeviceWithSnapshot`,
served by `GET /restore/pending`) -/

/-- Embeds `findPendingByTargetDeviceWithSnapshot(userId, targetDeviceId)`: join
`restore_requests` with `snapshots`, keep rows with the right target and
owner whose status is `'pending'` *and* whose `expires_at > NOW()`, order
by `created_at DESC`, `LIMIT 1`.  `now` is the query timestamp. -/
def findPendingByTargetDeviceWithSnapshot (userId targetDeviceId now : Nat)
    (db : RestoreDb) : Option (RestoreRequest × Snapshot) :=
  argmaxBy (fun p => p.1.created_at)
    (db.requests.filterMap fun r =>
      if r.target_device_id = targetDeviceId ∧ r.user_id = userId ∧
          r.status = RStatus.pending ∧ now < r.expires_at then
        match db.snapshots.find? (fun s => s.id == r.snapshot_id) with
        | some s => some (r, s)
        | none => none
      else none)

/-- C4: `fetchPendingForTarget` only ever returns a request that is
`pending` with `expires_at` strictly in the future at query time, and
returns none when every candidate pending request for the target has
lapsed — even though no background sweep has rewritten their status. -/
theorem C4_expiry_precedence (userId targetDeviceId now : Nat)
    (db : RestoreDb) :
    (∀ r s, findPendingByTargetDeviceWithSnapshot userId targetDeviceId now db
        = some (r, s) →
      r.status = RStatus.pending ∧ now < r.expires_at ∧
      r.target_device_id = targetDeviceId ∧ r.user_id = userId ∧
      r ∈ db.requests) ∧
    ((∀ r ∈ db.requests, r.target_device_id = targetDeviceId →
        r.user_id = userId → r.status = RStatus.pending →
        r.expires_at ≤ now) →
      findPendingByTargetDeviceWithSnapshot userId targetDeviceId now db
        = none) := by
  constructor
  · intro r s hsome
    have hmem : (r, s) ∈ db.requests.filterMap fun r =>
        if r.target_device_id = targetDeviceId ∧ r.user_id = userId ∧
            r.status = RStatus.pending ∧ now < r.expires_at then
          match db.snapshots.find? (fun s => s.id == r.snapshot_id) with
          | some s => some (r, s)
          | none => none
        else none :=
      argmaxBy_mem _ _ _ hsome
    rcases List.mem_filterMap.mp hmem with ⟨r0, hr0, heq⟩
    by_cases hc : r0.target_device_id = targetDeviceId ∧ r0.user_id = userId ∧
        r0.status = RStatus.pending ∧ now < r0.expires_at
    · rw [if_pos hc] at heq
      rcases hfind : db.snapshots.find? (fun s => s.id == r0.snapshot_id) with _ | s0
      · rw [hfind] at heq
        exact absurd heq (by simp)
      · rw [hfind] at heq
        simp only [Option.some.injEq, Prod.mk.injEq] at heq
        obtain ⟨rfl, -⟩ := heq
        exact ⟨hc.2.2.1, hc.2.2.2, hc.1, hc.2.1, hr0⟩
    · rw [if_neg hc] at heq
      exact absurd heq (by simp)
  · intro hall
    unfold findPendingByTargetDeviceWithSnapshot
    rw [argmaxBy_eq_none]
    rw [List.filterMap_eq_nil_iff]
    intro r0 hr0
    by_cases hc : r0.target_device_id = targetDeviceId ∧ r0.user_id = userId ∧
        r0.status = RStatus.pending ∧ now < r0.expires_at
    · have := hall r0 hr0 hc.1 hc.2.1 hc.2.2.1
      omega
    · rw [if_neg hc]

/-- A pending request whose `expires_at` already lies in the past. -/
def lapsedReq : RestoreRequest :=
  { id := 70, user_id := 10, source_device_id := 2, target_device_id := 2,
    snapshot_id := 100, target_url := none, status := RStatus.pending,
    error_msg := none, created_at := 500, expires_at := 800 }

theorem C4_expiry_precedence_witness :
    ((∀ r s, findPendingByTargetDeviceWithSnapshot 10 2 900
        { requests := [lapsedReq], snapshots := [sampleSnapshotRow] }
        = some (r, s) →
      r.status = RStatus.pending ∧ 900 < r.expires_at ∧
      r.target_device_id = 2 ∧ r.user_id = 10 ∧
      r ∈ [lapsedReq]) ∧
    ((∀ r ∈ [lapsedReq], r.target_device_id = 2 →
        r.user_id = 10 → r.status = RStatus.pending → r.expires_at ≤ 900) →
      findPendingByTargetDeviceWithSnapshot 10 2 900
        { requests := [lapsedReq], snapshots := [sampleSnapshotRow] }
        = none)) ∧
    findPendingByTargetDeviceWithSnapshot 10 2 900
      { requests := [lapsedReq], snapshots := [sampleSnapshotRow] } = none :=
  ⟨C4_expiry_precedence 10 2 900
      { requests := [lapsedReq], snapshots := [sampleSnapshotRow] },
   (C4_expiry_precedence 10 2 900
      { requests := [lapsedReq], snapshots := [sampleSnapshotRow] }).2
     (by decide)⟩

/-! ## Atomicity of the expire-then-insert step (C9)

`RestoreService.createRequest` issues `expireExistingPending` and `create`
as two separate `await`ed SQL statements with no surrounding transaction
(likewise the legacy route: a standalone `UPDATE` followed by a standalone
`INSERT`).  Each statement is individually atomic, so a concurrent
execution of two `createRequest` calls is an arbitrary interleaving of the
two per-call statement sequences.  The schedule below is such an
interleaving and leaves *two* pending requests for the same
(owner, target). -/

/-- One store-level write of the expire-then-insert step. -/
inductive RestoreOp where
  | expire (targetDeviceId : Nat)
  | insert (req : RestoreRequest)
  deriving Repr, DecidableEq

def applyOp (db : RestoreDb) : RestoreOp → RestoreDb
  | .expire t => expireExistingPending t db
  | .insert r => { db with requests := db.requests ++ [r] }

def runOps (db : RestoreDb) (ops : List RestoreOp) : RestoreDb :=
  ops.foldl applyOp db

/-- The write sequence a single `createRequest` execution issues against
the store (statement 2 `expireExistingPending`, then statement 3 `create`). -/
def createRequestOps (req : RestoreRequest) : List RestoreOp :=
  [.expire req.target_device_id, .insert req]

/-- Predicate `interleaves as bs cs`: `cs` is an order-preserving merge of `as` and
`bs` — a possible concurrent schedule of the two statement sequences. -/
def interleaves : List RestoreOp → List RestoreOp → List RestoreOp → Bool
  | as, bs, [] => as.isEmpty && bs.isEmpty
  | as, bs, c :: cs =>
      (match as with
       | a :: as' => a == c && interleaves as' bs cs
       | [] => false) ||
      (match bs with
       | b :: bs' => b == c && interleaves as bs' cs
       | [] => false)

/-- Number of pending requests for a target device. -/
def countPendingFor (db : RestoreDb) (targetDeviceId : Nat) : Nat :=
  db.requests.countP fun r =>
    r.target_device_id == targetDeviceId && r.status == RStatus.pending

/-- The second concurrent insert, same owner and target as `sampleR2`. -/
def sampleR3 : RestoreRequest :=
  { id := 52, user_id := 10, source_device_id := 2, target_device_id := 2,
    snapshot_id := 100, target_url := none, status := RStatus.pending,
    error_msg := none, created_at := 2001, expires_at := 302001 }

/-- C9 (the code violates the claim): the expire-then-insert step is two
separate statements, not one atomic operation — the schedule
`expireA, expireB, insertA, insertB` is a valid interleaving of two
concurrent `createRequest` executions for the same (owner, target) and
leaves two `pending` requests for that target. -/
theorem C9_nonatomic_create_race :
    interleaves (createRequestOps sampleR2) (createRequestOps sampleR3)
      [RestoreOp.expire 2, RestoreOp.expire 2,
       RestoreOp.insert sampleR2, RestoreOp.insert sampleR3] = true ∧
    countPendingFor
      (runOps { requests := [sampleR1], snapshots := [sampleSnapshotRow] }
        [RestoreOp.expire 2, RestoreOp.expire 2,
         RestoreOp.insert sampleR2, RestoreOp.insert sampleR3]) 2 = 2 := by
  decide

/-! ## Recovery-material endpoint (routes/auth.ts
`POST /auth/recovery-material`, services `AuthService.getRecoveryMaterial`)

Unlike `GET /auth/me`, this route is registered without the `authenticate`
preHandler, and its handler takes nothing but the request body's `email` —
the embedded function below accordingly has no token/credential argument at
all. -/

/-- A `users` row (the columns this endpoint touches). -/
structure UserRow where
  id : Nat
  email : String
  password_hash : String
  encrypted_master_key : String
  master_key_iv : String
  salt : String
  recovery_encrypted_master_key : Option String
  recovery_key_iv : Option String
  recovery_key_salt : Option String
  recovery_key_hash : Option String
  deriving Repr, DecidableEq

/-- Body returned by `AuthService.getRecoveryMaterial`. -/
structure RecoveryMaterial where
  email : String
  recovery_encrypted_master_key : String
  recovery_key_iv : Option String
  recovery_key_salt : Option String
  recovery_key_hash : Option String
  deriving Repr, DecidableEq

/-- Responses of `POST /auth/recovery-material`. -/
inductive RecoveryResponse where
  | ok (material : RecoveryMaterial)
  | badRequest
  | notFound
  deriving Repr, DecidableEq

/-- Embeds `AuthService.getRecoveryMaterial(email)`: look the user up by email and
return the recovery-wrapped envelope together with the server-held
`recovery_key_hash`. -/
def getRecoveryMaterial (users : List UserRow) (email : String) :
    Except String RecoveryMaterial :=
  match users.find? (fun u => u.email == email) with
  | none => .error "Recovery material not found"
  | some u =>
      match u.recovery_encrypted_master_key with
      | none => .error "Recovery material not found"
      | some m =>
          .ok { email := u.email
                recovery_encrypted_master_key := m
                recovery_key_iv := u.recovery_key_iv
                recovery_key_salt := u.recovery_key_salt
                recovery_key_hash := u.recovery_key_hash }

/-- The `POST /auth/recovery-material` handler: no `authenticate` preHandler —
the only input is the optional body email. -/
def postRecoveryMaterial (users : List UserRow) (bodyEmail : Option String) :
    RecoveryResponse :=
  match bodyEmail with
  | none => .badRequest
  | some email =>
      match getRecoveryMaterial users email with
      | .ok m => .ok m
      | .error _ => .notFound

/-- C10: for every registered email whose account has recovery material,
any caller supplying only that email — no authentication, no proof of
knowledge of the recovery secret — receives the recovery-wrapped key
envelope together with the server-held hash of the recovery secret. -/
theorem C10_recovery_material_unauthenticated (users : List UserRow)
    (email : String) (u : UserRow) (m : String)
    (hfind : users.find? (fun u' => u'.email == email) = some u)
    (hm : u.recovery_encrypted_master_key = some m) :
    postRecoveryMaterial users (some email) =
      .ok { email := u.email
            recovery_encrypted_master_key := m
            recovery_key_iv := u.recovery_key_iv
            recovery_key_salt := u.recovery_key_salt
            recovery_key_hash := u.recovery_key_hash } := by
  unfold postRecoveryMaterial getRecoveryMaterial
  dsimp only
  rw [hfind]
  dsimp only
  rw [hm]

/-- Concrete user row for the C10 witness. -/
def sampleUser : UserRow :=
  { id := 10, email := "a@b.c", password_hash := "ph",
    encrypted_master_key := "emk", master_key_iv := "iv", salt := "s",
    recovery_encrypted_master_key := some "remk",
    recovery_key_iv := some "riv", recovery_key_salt := some "rs",
    recovery_key_hash := some "rh" }

theorem C10_recovery_material_unauthenticated_witness :
    postRecoveryMaterial [sampleUser] (some "a@b.c") =
      .ok { email := "a@b.c"
            recovery_encrypted_master_key := "remk"
            recovery_key_iv := some "riv"
            recovery_key_salt := some "rs"
            recovery_key_hash := some "rh" } :=
  C10_recovery_material_unauthenticated [sampleUser] "a@b.c" sampleUser
    "remk" (by decide) rfl

end VaultTabs
